import Mathlib

/-!
Shallow embedding of `src/main.py` of same-picture-posting-bot: the interval
codec (`parse_time_interval`, `format_time_interval`), the scheduler's delay
computation (`schedule_next_post`), and the command handlers, together with
proofs of the specified properties.
-/

namespace SPPB

/-! ### Decimal digits

Python renders integers into f-strings in decimal (`f"{days}d"`) and the
regex groups `(\d+)` are converted back with `int(...)`.  We model both
directions on lists of characters. -/

/-- The decimal digit character for a value below ten (as Python's `str`). -/
def digitChar : Nat → Char
  | 0 => '0'
  | 1 => '1'
  | 2 => '2'
  | 3 => '3'
  | 4 => '4'
  | 5 => '5'
  | 6 => '6'
  | 7 => '7'
  | 8 => '8'
  | 9 => '9'
  | _ => '0'

/-- Numeric value of a decimal digit character (`int` on a one-digit string). -/
def digitVal (c : Char) : Nat := c.toNat - 48

/-- Decimal rendering of a natural number, most significant digit first
(Python's `str` on a non-negative `int`). -/
def natToDigits (n : Nat) : List Char :=
  if _h : n < 10 then [digitChar n]
  else natToDigits (n / 10) ++ [digitChar (n % 10)]
decreasing_by exact Nat.div_lt_self (by omega) (by decide)

/-- Python's `int` on a non-empty string of decimal digits. -/
def digitsToNat (ds : List Char) : Nat :=
  ds.foldl (fun a c => a * 10 + digitVal c) 0

theorem digitChar_isDigit (n : Nat) (h : n < 10) : (digitChar n).isDigit = true := by
  interval_cases n <;> decide

theorem digitVal_digitChar (n : Nat) (h : n < 10) : digitVal (digitChar n) = n := by
  interval_cases n <;> decide

theorem natToDigits_ne_nil (n : Nat) : natToDigits n ≠ [] := by
  unfold natToDigits
  split <;> simp

theorem natToDigits_isDigit (n : Nat) : ∀ c ∈ natToDigits n, c.isDigit = true := by
  induction n using Nat.strong_induction_on with
  | _ n ih =>
    unfold natToDigits
    split
    · rename_i h
      intro c hc
      simp only [List.mem_singleton] at hc
      subst hc
      exact digitChar_isDigit n h
    · rename_i h
      intro c hc
      rcases List.mem_append.mp hc with h1 | h2
      · exact ih (n / 10) (Nat.div_lt_self (by omega) (by decide)) c h1
      · simp only [List.mem_singleton] at h2
        subst h2
        exact digitChar_isDigit _ (Nat.mod_lt _ (by decide))

theorem foldl_natToDigits (n : Nat) : ∀ a : Nat,
    (natToDigits n).foldl (fun x c => x * 10 + digitVal c) a
      = a * 10 ^ (natToDigits n).length + n := by
  induction n using Nat.strong_induction_on with
  | _ n ih =>
    intro a
    unfold natToDigits
    split
    · rename_i h
      simp [List.foldl, digitVal_digitChar n h]
    · rename_i h
      rw [List.foldl_append, List.length_append]
      rw [ih (n / 10) (Nat.div_lt_self (by omega) (by decide)) a]
      simp only [List.foldl, List.length_singleton]
      rw [digitVal_digitChar (n % 10) (Nat.mod_lt _ (by decide))]
      calc (a * 10 ^ (natToDigits (n / 10)).length + n / 10) * 10 + n % 10
          = a * (10 ^ (natToDigits (n / 10)).length * 10) + (10 * (n / 10) + n % 10) := by ring
        _ = a * 10 ^ ((natToDigits (n / 10)).length + 1) + n := by
              rw [Nat.div_add_mod, pow_succ]

theorem digitsToNat_natToDigits (n : Nat) : digitsToNat (natToDigits n) = n := by
  unfold digitsToNat
  rw [foldl_natToDigits]
  simp

/-! ### The interval codec (`parse_time_interval`, `format_time_interval`)

`parse_time_interval` applies the regular expression
`(?:(\d+)d)?(?:(\d+)h)?(?:(\d+)m)?(?:(\d+)s)?` with `re.match`, i.e. a
prefix match anchored at the start.  Each optional group is matched
greedily: it consumes the maximal run of digits followed by its unit
character, and matches empty otherwise (backtracking to a shorter digit
run can never help, because the character after a shorter run is a digit,
not the unit).  `tryComp` is one such group. -/

/-- One regex group `(?:(\d+)u)?` matched greedily at the head of `s`:
the value of the digits and the remaining input when the group matches, or
`none` with `s` unchanged when it matches empty. -/
def tryComp (u : Char) (s : List Char) : Option Nat × List Char :=
  if s.takeWhile Char.isDigit ≠ [] ∧ (s.dropWhile Char.isDigit).head? = some u then
    (some (digitsToNat (s.takeWhile Char.isDigit)), (s.dropWhile Char.isDigit).tail)
  else
    (none, s)

/-- `parse_time_interval` from `src/main.py`.  The empty string is Python-falsy
and returns 0; when no group matches (`not any(match.groups())`) the function
raises `ValueError`, modelled as `Except.error`. -/
def parse_time_interval (interval_str : String) : Except String Nat :=
  if interval_str.data = [] then Except.ok 0
  else
    let p1 := tryComp 'd' interval_str.data
    let p2 := tryComp 'h' p1.2
    let p3 := tryComp 'm' p2.2
    let p4 := tryComp 's' p3.2
    if p1.1 = none ∧ p2.1 = none ∧ p3.1 = none ∧ p4.1 = none then
      Except.error ("Invalid time interval format: " ++ interval_str)
    else
      Except.ok (p1.1.getD 0 * 86400 + p2.1.getD 0 * 3600 + p3.1.getD 0 * 60 + p4.1.getD 0)

/-- `format_time_interval` from `src/main.py`: successive `divmod` and the
concatenation of the non-zero components, with the final component also
emitted when the accumulated result is still empty.  String concatenation is
modelled on the underlying character lists. -/
def format_time_interval (seconds : Nat) : String :=
  let days := seconds / 86400
  let remainder := seconds % 86400
  let hours := remainder / 3600
  let remainder2 := remainder % 3600
  let minutes := remainder2 / 60
  let secs := remainder2 % 60
  let result : List Char :=
    (if 0 < days then natToDigits days ++ ['d'] else []) ++
    (if 0 < hours then natToDigits hours ++ ['h'] else []) ++
    (if 0 < minutes then natToDigits minutes ++ ['m'] else [])
  ⟨if 0 < secs ∨ result = [] then result ++ (natToDigits secs ++ ['s']) else result⟩

/-! ### Evaluating `tryComp` on shaped inputs -/

theorem takeWhile_digits_append (ds : List Char) (hds : ∀ c ∈ ds, c.isDigit = true)
    (u : Char) (hu : u.isDigit = false) (rest : List Char) :
    (ds ++ u :: rest).takeWhile Char.isDigit = ds ∧
    (ds ++ u :: rest).dropWhile Char.isDigit = u :: rest := by
  induction ds with
  | nil => simp [List.takeWhile, List.dropWhile, hu]
  | cons c t ih =>
    have hc : c.isDigit = true := hds c (List.mem_cons_self c t)
    have ht : ∀ x ∈ t, x.isDigit = true := fun x hx => hds x (List.mem_cons_of_mem c hx)
    obtain ⟨ih1, ih2⟩ := ih ht
    constructor
    · simp [List.takeWhile, hc, ih1]
    · simp [List.dropWhile, hc, ih2]

theorem tryComp_hit (u : Char) (hu : u.isDigit = false) (k : Nat) (rest : List Char) :
    tryComp u (natToDigits k ++ u :: rest) = (some k, rest) := by
  obtain ⟨h1, h2⟩ := takeWhile_digits_append (natToDigits k) (natToDigits_isDigit k) u hu rest
  unfold tryComp
  rw [h1, h2]
  rw [if_pos ⟨natToDigits_ne_nil k, rfl⟩]
  simp [digitsToNat_natToDigits]

theorem tryComp_miss (u : Char) (s : List Char)
    (h : s.takeWhile Char.isDigit = [] ∨ (s.dropWhile Char.isDigit).head? ≠ some u) :
    tryComp u s = (none, s) := by
  unfold tryComp
  rw [if_neg]
  rintro ⟨h1, h2⟩
  rcases h with h | h
  · exact h1 h
  · exact h h2

/-- Shapes of a remaining input during parsing: either no leading digit run,
or a canonical numeral followed by one of the unit characters in `us`. -/
def ChainShape (us : List Char) (s : List Char) : Prop :=
  s.takeWhile Char.isDigit = [] ∨ ∃ u ∈ us, ∃ k rest, s = natToDigits k ++ u :: rest

/-- An optional `<int><unit>` component as a character list. -/
def optComp (o : Option Nat) (u : Char) : List Char :=
  match o with
  | none => []
  | some k => natToDigits k ++ [u]

theorem optComp_eq_nil (o : Option Nat) (u : Char) : optComp o u = [] ↔ o = none := by
  cases o <;> simp [optComp, natToDigits_ne_nil]

theorem chainShape_mono (us us' s : List Char) (hsub : ∀ u ∈ us, u ∈ us')
    (h : ChainShape us s) : ChainShape us' s := by
  rcases h with h | ⟨u, hu, k, rest, heq⟩
  · exact Or.inl h
  · exact Or.inr ⟨u, hsub u hu, k, rest, heq⟩

theorem chainShape_cons (o : Option Nat) (u : Char) (us : List Char) (rest : List Char)
    (h : ChainShape us rest) : ChainShape (u :: us) (optComp o u ++ rest) := by
  cases o with
  | none =>
    simp only [optComp, List.nil_append]
    exact chainShape_mono us (u :: us) rest (fun x hx => List.mem_cons_of_mem u hx) h
  | some k =>
    exact Or.inr ⟨u, List.mem_cons_self u us, k, rest, by simp [optComp]⟩

theorem tryComp_miss_of_shape (u : Char) (us : List Char) (s : List Char)
    (h : ChainShape us s) (hu : u ∉ us) (hus : ∀ x ∈ us, x.isDigit = false) :
    tryComp u s = (none, s) := by
  rcases h with h | ⟨u', hu', k, rest, heq⟩
  · exact tryComp_miss u s (Or.inl h)
  · subst heq
    obtain ⟨_, h2⟩ := takeWhile_digits_append (natToDigits k) (natToDigits_isDigit k)
      u' (hus u' hu') rest
    apply tryComp_miss
    right
    rw [h2]
    simp only [List.head?_cons, ne_eq, Option.some.injEq]
    intro hcontra
    exact hu (hcontra ▸ hu')

theorem tryComp_optComp (u : Char) (hu : u.isDigit = false) (o : Option Nat)
    (us : List Char) (rest : List Char) (hrest : ChainShape us rest)
    (hu2 : u ∉ us) (hus : ∀ x ∈ us, x.isDigit = false) :
    tryComp u (optComp o u ++ rest) = (o, rest) := by
  cases o with
  | none =>
    simpa [optComp] using tryComp_miss_of_shape u us rest hrest hu2 hus
  | some k =>
    rw [show optComp (some k) u ++ rest = natToDigits k ++ u :: rest by simp [optComp]]
    exact tryComp_hit u hu k rest

/-! ### Parsing a canonical duration, with an optional non-digit tail -/

/-- The canonical compact duration built from the four optional components. -/
def durChain (od oh om os : Option Nat) : List Char :=
  optComp od 'd' ++ (optComp oh 'h' ++ (optComp om 'm' ++ optComp os 's'))

theorem durChain_ne_nil (od oh om os : Option Nat)
    (h : ¬(od = none ∧ oh = none ∧ om = none ∧ os = none)) :
    durChain od oh om os ≠ [] := by
  intro hnil
  apply h
  simpa [durChain, optComp_eq_nil] using hnil

theorem parse_chain_append (od oh om os : Option Nat)
    (h : ¬(od = none ∧ oh = none ∧ om = none ∧ os = none))
    (t : List Char) (ht : t.takeWhile Char.isDigit = []) :
    parse_time_interval ⟨durChain od oh om os ++ t⟩
      = Except.ok (od.getD 0 * 86400 + oh.getD 0 * 3600 + om.getD 0 * 60 + os.getD 0) := by
  have assoc : durChain od oh om os ++ t
      = optComp od 'd' ++ (optComp oh 'h' ++ (optComp om 'm' ++ (optComp os 's' ++ t))) := by
    simp [durChain]
  have sht : ChainShape [] t := Or.inl ht
  have sh3 : ChainShape ['s'] (optComp os 's' ++ t) := chainShape_cons os 's' [] t sht
  have sh2 : ChainShape ['m', 's'] (optComp om 'm' ++ (optComp os 's' ++ t)) :=
    chainShape_cons om 'm' ['s'] _ sh3
  have sh1 : ChainShape ['h', 'm', 's']
      (optComp oh 'h' ++ (optComp om 'm' ++ (optComp os 's' ++ t))) :=
    chainShape_cons oh 'h' ['m', 's'] _ sh2
  have e1 : tryComp 'd' (durChain od oh om os ++ t)
      = (od, optComp oh 'h' ++ (optComp om 'm' ++ (optComp os 's' ++ t))) := by
    rw [assoc]
    exact tryComp_optComp 'd' (by decide) od ['h', 'm', 's'] _ sh1 (by decide) (by decide)
  have e2 : tryComp 'h' (optComp oh 'h' ++ (optComp om 'm' ++ (optComp os 's' ++ t)))
      = (oh, optComp om 'm' ++ (optComp os 's' ++ t)) :=
    tryComp_optComp 'h' (by decide) oh ['m', 's'] _ sh2 (by decide) (by decide)
  have e3 : tryComp 'm' (optComp om 'm' ++ (optComp os 's' ++ t))
      = (om, optComp os 's' ++ t) :=
    tryComp_optComp 'm' (by decide) om ['s'] _ sh3 (by decide) (by decide)
  have e4 : tryComp 's' (optComp os 's' ++ t) = (os, t) :=
    tryComp_optComp 's' (by decide) os [] t sht (by decide) (by decide)
  have hne : durChain od oh om os ++ t ≠ [] := by
    intro hnil
    exact durChain_ne_nil od oh om os h (List.append_eq_nil.mp hnil).1
  simp only [parse_time_interval, hne, if_false, reduceIte, e1, e2, e3, e4]
  rw [if_neg h]

theorem parse_chain (od oh om os : Option Nat)
    (h : ¬(od = none ∧ oh = none ∧ om = none ∧ os = none)) :
    parse_time_interval ⟨durChain od oh om os⟩
      = Except.ok (od.getD 0 * 86400 + oh.getD 0 * 3600 + om.getD 0 * 60 + os.getD 0) := by
  have := parse_chain_append od oh om os h [] rfl
  simpa using this

/-! ### The structure of `format_time_interval`'s output -/

theorem getD_ite (c : Prop) [Decidable c] (k : Nat) (h : ¬c → k = 0) :
    (if c then some k else none).getD 0 = k := by
  split
  · rfl
  · rename_i hc
    simp [h hc]

theorem format_chain (n : Nat) :
    ∃ od oh om os : Option Nat,
      (format_time_interval n).data = durChain od oh om os ∧
      ¬(od = none ∧ oh = none ∧ om = none ∧ os = none) ∧
      od.getD 0 * 86400 + oh.getD 0 * 3600 + om.getD 0 * 60 + os.getD 0 = n ∧
      (∀ k, od = some k → 0 < k) ∧ (∀ k, oh = some k → 0 < k) ∧
      (∀ k, om = some k → 0 < k) ∧ (os = some 0 → n = 0) := by
  have hd : 86400 * (n / 86400) + n % 86400 = n := Nat.div_add_mod n 86400
  have hh : 3600 * (n % 86400 / 3600) + n % 86400 % 3600 = n % 86400 :=
    Nat.div_add_mod (n % 86400) 3600
  have hm : 60 * (n % 86400 % 3600 / 60) + n % 86400 % 3600 % 60 = n % 86400 % 3600 :=
    Nat.div_add_mod (n % 86400 % 3600) 60
  refine ⟨if 0 < n / 86400 then some (n / 86400) else none,
          if 0 < n % 86400 / 3600 then some (n % 86400 / 3600) else none,
          if 0 < n % 86400 % 3600 / 60 then some (n % 86400 % 3600 / 60) else none,
          if 0 < n % 86400 % 3600 % 60 ∨
             (n / 86400 = 0 ∧ n % 86400 / 3600 = 0 ∧ n % 86400 % 3600 / 60 = 0)
            then some (n % 86400 % 3600 % 60) else none, ?_, ?_, ?_, ?_, ?_, ?_, ?_⟩
  · by_cases h1 : n / 86400 = 0 <;> by_cases h2 : n % 86400 / 3600 = 0 <;>
      by_cases h3 : n % 86400 % 3600 / 60 = 0 <;> by_cases h4 : n % 86400 % 3600 % 60 = 0 <;>
      simp [format_time_interval, durChain, optComp, h1, h2, h3, h4,
        Nat.pos_iff_ne_zero, natToDigits_ne_nil]
  · by_cases h1 : n / 86400 = 0 <;> by_cases h2 : n % 86400 / 3600 = 0 <;>
      by_cases h3 : n % 86400 % 3600 / 60 = 0 <;> by_cases h4 : n % 86400 % 3600 % 60 = 0 <;>
      simp [h1, h2, h3, h4, Nat.pos_iff_ne_zero]
  · rw [getD_ite _ _ (by omega), getD_ite _ _ (by omega), getD_ite _ _ (by omega),
      getD_ite _ _ (by omega)]
    omega
  · split <;> simp <;> omega
  · split <;> simp <;> omega
  · split <;> simp <;> omega
  · split
    · rename_i hc
      simp only [Option.some.injEq]
      intro hz
      omega
    · simp

/-! ### The persisted configuration record (`config.json`) -/

/-- The single persisted record.  `last_post_time` is an optional epoch-seconds
integer: `none` models JSON `null` / an absent key. -/
structure Config where
  admin_id : Nat
  bot_token : String
  channel_name : String
  picture_path : String
  post_interval : String
  last_post_time : Option Nat
deriving DecidableEq, Repr

/-- Python truthiness of the `last_post_time` value: `None` and `0` are both
falsy, any non-zero integer is truthy. -/
def truthyNat : Option Nat → Bool
  | none => false
  | some n => decide (n ≠ 0)

/-! ### The scheduler (`schedule_next_post`)

We model the delay computation of `schedule_next_post`; the two
`job_queue.run_once` calls it makes (the post at `delay`, the re-scheduling at
`delay + 1`) consume that delay unchanged.  An unparseable stored interval
propagates the `ValueError` (the Python code does not catch it here). -/

def schedule_next_post (config : Config) (now : Nat) : Except String Nat :=
  match parse_time_interval config.post_interval with
  | Except.error e => Except.error e
  | Except.ok interval_seconds =>
    if truthyNat config.last_post_time then
      let last_post_time := config.last_post_time.getD 0
      let next_post_time := last_post_time + interval_seconds
      Except.ok (if next_post_time ≤ now then 1 else next_post_time - now)
    else
      Except.ok interval_seconds

/-! ### Command handlers

Each handler is modelled as a function from the loaded config (plus the
telegram-supplied inputs it reads) to the saved config and the reply it sends.
Side effects outside the config record (network transmission, file existence,
download) enter as boolean/service parameters. -/

/-- The part of the `/status` text after the interval line: either the
last/next post report (with the remaining time when the next post is still in
the future) or the "No posts have been made yet." line. -/
inductive StatusTail where
  | posted (last_post next_post : Nat) (time_left : Option Nat)
  | noPosts
deriving DecidableEq

/-- The replies/log outcomes the handlers can produce.  Free-text details of
the human-readable messages are reduced to the data they interpolate. -/
inductive Reply where
  | notAuthorized
  | welcome
  | statusReport (channel picture interval : String) (interval_seconds : Nat)
      (tail : StatusTail)
  | channelUsage
  | channelSet (name : String)
  | intervalUsage
  | intervalTooSmall
  | intervalError (e : String)
  | intervalSet (interval : String) (seconds : Nat)
  | pictureUsage
  | pictureSet (path : String)
  | pictureNotFound (path : String)
  | postSuccess
  | postError (e : String)
deriving DecidableEq

/-- Tail of the `/status` message, from `status` in `src/main.py`:
the branch is on Python truthiness of `config['last_post_time']`. -/
def status_tail (last_post_time : Option Nat) (interval_seconds now : Nat) : StatusTail :=
  if truthyNat last_post_time then
    let last_post := last_post_time.getD 0
    let next_post := last_post + interval_seconds
    StatusTail.posted last_post next_post (if now < next_post then some (next_post - now) else none)
  else
    StatusTail.noPosts

/-- `/start` handler. -/
def start (config : Config) (user_id : Nat) : Config × Reply :=
  if user_id ≠ config.admin_id then (config, Reply.notAuthorized)
  else (config, Reply.welcome)

/-- `/status` handler; `parse_time_interval` may raise, which the handler does
not catch. -/
def status (config : Config) (user_id : Nat) (now : Nat) : Except String (Config × Reply) :=
  if user_id ≠ config.admin_id then Except.ok (config, Reply.notAuthorized)
  else
    match parse_time_interval config.post_interval with
    | Except.error e => Except.error e
    | Except.ok interval_seconds =>
      Except.ok (config, Reply.statusReport config.channel_name config.picture_path
        config.post_interval interval_seconds
        (status_tail config.last_post_time interval_seconds now))

/-- `/setchannel` handler. -/
def set_channel (config : Config) (user_id : Nat) (args : List String) : Config × Reply :=
  if user_id ≠ config.admin_id then (config, Reply.notAuthorized)
  else
    match args with
    | [] => (config, Reply.channelUsage)
    | a :: _ =>
      if a.startsWith "@" then
        ({config with channel_name := a}, Reply.channelSet a)
      else (config, Reply.channelUsage)

/-- `/setinterval` handler: rejects a missing argument, a `ValueError` from
the parse, and a value below the 10-second floor; otherwise stores the raw
argument string. -/
def set_interval (config : Config) (user_id : Nat) (args : List String) : Config × Reply :=
  if user_id ≠ config.admin_id then (config, Reply.notAuthorized)
  else
    match args with
    | [] => (config, Reply.intervalUsage)
    | interval_str :: _ =>
      match parse_time_interval interval_str with
      | Except.error e => (config, Reply.intervalError e)
      | Except.ok seconds =>
        if seconds < 10 then (config, Reply.intervalTooSmall)
        else ({config with post_interval := interval_str}, Reply.intervalSet interval_str seconds)

/-- `/setpicture` handler: when the message replies to a photo, the file is
downloaded to `pictures/picture_<epoch>.jpg` and that path is stored. -/
def set_picture (config : Config) (user_id : Nat) (has_photo_reply : Bool) (now : Nat) :
    Config × Reply :=
  if user_id ≠ config.admin_id then (config, Reply.notAuthorized)
  else if has_photo_reply then
    let file_path := "pictures/picture_" ++ String.mk (natToDigits now) ++ ".jpg"
    ({config with picture_path := file_path}, Reply.pictureSet file_path)
  else (config, Reply.pictureUsage)

/-- `/post` handler.  `picture_exists` models `os.path.exists`; `send_ok`
models whether `bot.send_photo` raises.  `last_post_time` is written only
after a successful transmission. -/
def post_now (config : Config) (user_id : Nat) (picture_exists send_ok : Bool) (now : Nat) :
    Config × Reply :=
  if user_id ≠ config.admin_id then (config, Reply.notAuthorized)
  else if ¬picture_exists then (config, Reply.pictureNotFound config.picture_path)
  else if send_ok then
    ({config with last_post_time := some now}, Reply.postSuccess)
  else (config, Reply.postError "send_photo raised")

/-- The scheduled posting job, identical to `/post` but without the
authorization gate; failures are only logged. -/
def post_scheduled_picture (config : Config) (picture_exists send_ok : Bool) (now : Nat) :
    Config × Reply :=
  if ¬picture_exists then (config, Reply.pictureNotFound config.picture_path)
  else if send_ok then
    ({config with last_post_time := some now}, Reply.postSuccess)
  else (config, Reply.postError "send_photo raised")

/-! ### Concrete configurations used to instantiate theorems -/

/-- A freshly seeded config: never posted, half-hour interval. -/
def cfgFresh : Config :=
  { admin_id := 1, bot_token := "tok", channel_name := "@chan",
    picture_path := "pictures/p.jpg", post_interval := "30m", last_post_time := none }

/-- A config whose stored `last_post_time` is the integer 0. -/
def cfgZeroLast : Config :=
  { admin_id := 1, bot_token := "tok", channel_name := "@chan",
    picture_path := "pictures/p.jpg", post_interval := "10s", last_post_time := some 0 }

/-- A config that posted at epoch second 50 with a 10-second interval. -/
def cfgPosted : Config :=
  { admin_id := 1, bot_token := "tok", channel_name := "@chan",
    picture_path := "pictures/p.jpg", post_interval := "10s", last_post_time := some 50 }

/-- A config whose stored interval is below the 10-second floor. -/
def cfgOneSec : Config :=
  { admin_id := 1, bot_token := "tok", channel_name := "@chan",
    picture_path := "pictures/p.jpg", post_interval := "1s", last_post_time := none }

/-! ### Auxiliary facts -/

/-- A string whose start matches none of the four components parses to the
invalid-format `ValueError`. -/
theorem parse_no_match_error (s : String) (hne : s.data ≠ [])
    (hmiss : s.data.takeWhile Char.isDigit = [] ∨
      ∀ u ∈ (['d', 'h', 'm', 's'] : List Char),
        (s.data.dropWhile Char.isDigit).head? ≠ some u) :
    parse_time_interval s = Except.error ("Invalid time interval format: " ++ s) := by
  have miss : ∀ u ∈ (['d', 'h', 'm', 's'] : List Char), tryComp u s.data = (none, s.data) := by
    intro u hu
    apply tryComp_miss
    rcases hmiss with h | h
    · exact Or.inl h
    · exact Or.inr (h u hu)
  have m1 := miss 'd' (by decide)
  have m2 := miss 'h' (by decide)
  have m3 := miss 'm' (by decide)
  have m4 := miss 's' (by decide)
  simp only [parse_time_interval, hne, if_false, reduceIte, m1, m2, m3, m4]
  simp

/-! ### The claims -/

/-- C1: for every non-negative integer n, parsing the string produced by
formatting n returns n: `parse_time_interval (format_time_interval n) = n`. -/
theorem parse_format_roundtrip (n : Nat) :
    parse_time_interval (format_time_interval n) = Except.ok n := by
  obtain ⟨od, oh, om, os, hdata, hne, hsum, _, _, _, _⟩ := format_chain n
  have hfmt : format_time_interval n = ⟨durChain od oh om os⟩ := congrArg String.mk hdata
  rw [hfmt, parse_chain od oh om os hne, hsum]

/-- C2 (amended): for every config whose `last_post_time` is present with a
non-zero value T (the code branches on Python truthiness, so a stored 0 counts
as never-posted) and whose `post_interval` parses to I seconds: the computed
delay is exactly 1 when T + I ≤ now (catch-up, one post regardless of how many
intervals were missed), and exactly (T + I) - now otherwise. -/
theorem schedule_catchup (config : Config) (now T I : Nat)
    (hT : config.last_post_time = some T) (hT0 : T ≠ 0)
    (hI : parse_time_interval config.post_interval = Except.ok I) :
    schedule_next_post config now
      = Except.ok (if T + I ≤ now then 1 else T + I - now) := by
  simp [schedule_next_post, hI, hT, truthyNat, hT0]

/-- Witness for C2 at a concrete overdue config: T = 50, I = 10, now = 100. -/
theorem schedule_catchup_witness :
    schedule_next_post cfgPosted 100
      = Except.ok (if 50 + 10 ≤ 100 then 1 else 50 + 10 - 100) :=
  schedule_catchup cfgPosted 100 50 10 rfl (by decide) rfl

/-- C2 counterexample: `last_post_time` present with value 0, interval 10s and
now = 100 satisfy T + I ≤ now, yet the computed delay is the full interval 10,
not the catch-up 1: the stored 0 is Python-falsy and treated as
never-posted. -/
theorem schedule_catchup_cex :
    cfgZeroLast.last_post_time = some 0 ∧
    parse_time_interval cfgZeroLast.post_interval = Except.ok 10 ∧
    0 + 10 ≤ 100 ∧
    schedule_next_post cfgZeroLast 100 = Except.ok 10 ∧
    (Except.ok 10 : Except String Nat) ≠ Except.ok 1 :=
  ⟨rfl, rfl, by decide, rfl, by simp⟩

/-- C3 (amended): with no prior `last_post_time` the computed delay is exactly
the parsed interval I; whenever I respects the 10-second floor the command
layer enforces on stored intervals, the delay is consequently never 1 and
never 0. -/
theorem schedule_first_delay (config : Config) (now I : Nat)
    (hltp : config.last_post_time = none)
    (hI : parse_time_interval config.post_interval = Except.ok I) :
    schedule_next_post config now = Except.ok I ∧
    (10 ≤ I → schedule_next_post config now ≠ Except.ok 1 ∧
      schedule_next_post config now ≠ Except.ok 0) := by
  have h : schedule_next_post config now = Except.ok I := by
    simp [schedule_next_post, hI, hltp, truthyNat]
  refine ⟨h, fun h10 => ⟨?_, ?_⟩⟩ <;> rw [h] <;> simp <;> omega

/-- Witness for C3 at a concrete fresh config with a 30-minute interval. -/
theorem schedule_first_delay_witness :
    schedule_next_post cfgFresh 12345 = Except.ok 1800 :=
  (schedule_first_delay cfgFresh 12345 1800 rfl rfl).1

/-- C3 counterexample: a config with no `last_post_time` whose stored interval
parses to 1 second gets computed delay exactly 1, contradicting "never 1" as
universally stated (the scheduler returns I for whatever interval is stored,
with no defensive floor of its own). -/
theorem schedule_first_delay_cex :
    cfgOneSec.last_post_time = none ∧
    parse_time_interval cfgOneSec.post_interval = Except.ok 1 ∧
    schedule_next_post cfgOneSec 0 = Except.ok 1 :=
  ⟨rfl, rfl, rfl⟩

/-- C4 (amended): trailing characters that cannot extend the prefix match —
any suffix whose first character is not a decimal digit — are silently
ignored: parsing the valid compact duration with the suffix appended succeeds
and equals parsing the duration alone.  A non-empty string whose start matches
none of the four `<int><unit>` components fails with the invalid-format
`ValueError`. -/
theorem trailing_chars_ignored (od oh om os : Option Nat)
    (hsome : ¬(od = none ∧ oh = none ∧ om = none ∧ os = none))
    (t : List Char) (ht : t.takeWhile Char.isDigit = []) :
    parse_time_interval ⟨durChain od oh om os ++ t⟩
        = parse_time_interval ⟨durChain od oh om os⟩ ∧
    (∃ v, parse_time_interval ⟨durChain od oh om os ++ t⟩ = Except.ok v) ∧
    (∀ s : String, s.data ≠ [] →
      (s.data.takeWhile Char.isDigit = [] ∨
        ∀ u ∈ (['d', 'h', 'm', 's'] : List Char),
          (s.data.dropWhile Char.isDigit).head? ≠ some u) →
      parse_time_interval s = Except.error ("Invalid time interval format: " ++ s)) := by
  refine ⟨?_, ⟨_, parse_chain_append od oh om os hsome t ht⟩, parse_no_match_error⟩
  rw [parse_chain_append od oh om os hsome t ht, parse_chain od oh om os hsome]

/-- Witness for C4: the duration "1d" with the non-digit suffix "x!"
appended parses exactly as "1d" does. -/
theorem trailing_chars_ignored_witness :
    parse_time_interval ⟨durChain (some 1) none none none ++ ['x', '!']⟩
      = parse_time_interval ⟨durChain (some 1) none none none⟩ :=
  (trailing_chars_ignored (some 1) none none none (by simp) ['x', '!'] (by decide)).1

/-- C4 counterexample: "1d" is a non-empty valid compact duration and "2h" a
suffix, yet parse "1d2h" = 93600 ≠ 86400 = parse "1d": a digit-led suffix
extends the regex match instead of being ignored. -/
theorem trailing_chars_ignored_cex :
    parse_time_interval "1d" = Except.ok 86400 ∧
    parse_time_interval ("1d" ++ "2h") = Except.ok 93600 ∧
    parse_time_interval ("1d" ++ "2h") ≠ parse_time_interval "1d" := by
  refine ⟨rfl, rfl, ?_⟩
  rw [show parse_time_interval ("1d" ++ "2h") = Except.ok 93600 from rfl,
    show parse_time_interval "1d" = Except.ok 86400 from rfl]
  simp

/-- C5: a stored `last_post_time` equal to 0 (present, not null) is treated by
the scheduler exactly like "never posted": the computed delay equals the one
for an absent value — the full interval, not the catch-up 1 — and the status
report shows the no-posts-yet line. -/
theorem zero_last_post_like_never (config : Config) (now : Nat)
    (h : config.last_post_time = some 0) :
    schedule_next_post config now
        = schedule_next_post {config with last_post_time := none} now ∧
    (∀ I, parse_time_interval config.post_interval = Except.ok I →
      schedule_next_post config now = Except.ok I) ∧
    (∀ I, status_tail config.last_post_time I now = StatusTail.noPosts) := by
  refine ⟨?_, fun I hI => ?_, fun I => ?_⟩
  · cases hp : parse_time_interval config.post_interval with
    | error e => simp [schedule_next_post, hp]
    | ok I => simp [schedule_next_post, hp, h, truthyNat]
  · simp [schedule_next_post, hI, h, truthyNat]
  · simp [status_tail, h, truthyNat]

/-- Witness for C5 at the concrete zero-timestamp config. -/
theorem zero_last_post_like_never_witness :
    schedule_next_post cfgZeroLast 100
      = schedule_next_post {cfgZeroLast with last_post_time := none} 100 :=
  (zero_last_post_like_never cfgZeroLast 100 rfl).1

/-- C6: a failed post attempt — missing picture or transmission failure —
leaves the config, hence `last_post_time`, unchanged, both for /post and for
the scheduled post; `last_post_time` is written (to the current time) only on
success, and an admin /post with a missing picture reports pictureNotFound. -/
theorem failed_post_keeps_last_post_time (config : Config) (user_id : Nat)
    (picture_exists send_ok : Bool) (now : Nat) :
    ((post_now config user_id picture_exists send_ok now).2 ≠ Reply.postSuccess →
      (post_now config user_id picture_exists send_ok now).1 = config) ∧
    ((post_scheduled_picture config picture_exists send_ok now).2 ≠ Reply.postSuccess →
      (post_scheduled_picture config picture_exists send_ok now).1 = config) ∧
    ((post_now config user_id picture_exists send_ok now).2 = Reply.postSuccess →
      (post_now config user_id picture_exists send_ok now).1.last_post_time = some now) ∧
    ((post_scheduled_picture config picture_exists send_ok now).2 = Reply.postSuccess →
      (post_scheduled_picture config picture_exists send_ok now).1.last_post_time
        = some now) ∧
    (user_id = config.admin_id → picture_exists = false →
      (post_now config user_id picture_exists send_ok now).2
        = Reply.pictureNotFound config.picture_path) := by
  unfold post_now post_scheduled_picture
  by_cases hid : user_id ≠ config.admin_id <;> cases picture_exists <;> cases send_ok <;>
    simp_all

/-- C7: for the admin, /setinterval stores its argument if and only if it is
present, parseable, and at least 10 seconds; every rejection path leaves the
config unchanged; "5s" is rejected and "10s" accepted. -/
theorem set_interval_floor (config : Config) (user_id : Nat) (args : List String)
    (hadmin : user_id = config.admin_id) :
    (∀ a rest I, args = a :: rest → parse_time_interval a = Except.ok I → 10 ≤ I →
      set_interval config user_id args
        = ({config with post_interval := a}, Reply.intervalSet a I)) ∧
    (∀ a rest I, args = a :: rest → parse_time_interval a = Except.ok I → I < 10 →
      set_interval config user_id args = (config, Reply.intervalTooSmall)) ∧
    (∀ a rest e, args = a :: rest → parse_time_interval a = Except.error e →
      set_interval config user_id args = (config, Reply.intervalError e)) ∧
    (args = [] → set_interval config user_id args = (config, Reply.intervalUsage)) ∧
    (∀ rest, (set_interval config user_id ("5s" :: rest)).1 = config) ∧
    (∀ rest, set_interval config user_id ("10s" :: rest)
      = ({config with post_interval := "10s"}, Reply.intervalSet "10s" 10)) := by
  refine ⟨fun a rest I ha hI h10 => ?_, fun a rest I ha hI h10 => ?_,
    fun a rest e ha he => ?_, fun ha => ?_, fun rest => ?_, fun rest => ?_⟩
  · subst ha
    simp [set_interval, hadmin, hI, Nat.not_lt.mpr h10]
  · subst ha
    simp [set_interval, hadmin, hI, h10]
  · subst ha
    simp [set_interval, hadmin, he]
  · subst ha
    simp [set_interval, hadmin]
  · simp [set_interval, hadmin, show parse_time_interval "5s" = Except.ok 5 from rfl]
  · simp [set_interval, hadmin, show parse_time_interval "10s" = Except.ok 10 from rfl]

/-- Witness for C7: the admin of the fresh config sets "10s" and it is
stored. -/
theorem set_interval_floor_witness :
    set_interval cfgFresh 1 ["10s"]
      = ({cfgFresh with post_interval := "10s"}, Reply.intervalSet "10s" 10) :=
  ((set_interval_floor cfgFresh 1 ["10s"] rfl).2.2.2.2.2) []

/-- C8: every operator command (start, status, setchannel, setinterval,
setpicture, post) invoked by an identity different from `admin_id` responds
with the authorization denial and performs no state change: the config record
is returned unmodified. -/
theorem unauthorized_commands_no_change (config : Config) (user_id now : Nat)
    (args : List String) (has_photo_reply picture_exists send_ok : Bool)
    (h : user_id ≠ config.admin_id) :
    start config user_id = (config, Reply.notAuthorized) ∧
    status config user_id now = Except.ok (config, Reply.notAuthorized) ∧
    set_channel config user_id args = (config, Reply.notAuthorized) ∧
    set_interval config user_id args = (config, Reply.notAuthorized) ∧
    set_picture config user_id has_photo_reply now = (config, Reply.notAuthorized) ∧
    post_now config user_id picture_exists send_ok now = (config, Reply.notAuthorized) := by
  refine ⟨?_, ?_, ?_, ?_, ?_, ?_⟩ <;>
    simp [start, status, set_channel, set_interval, set_picture, post_now, h]

/-- Witness for C8: user 2 invokes /start on the config whose admin is 1. -/
theorem unauthorized_commands_no_change_witness :
    start cfgFresh 2 = (cfgFresh, Reply.notAuthorized) :=
  (unauthorized_commands_no_change cfgFresh 2 0 [] false false false (by decide)).1

/-- C9: concrete parses: the empty string returns 0 (the no-interval
sentinel, no failure), "garbage" fails with the invalid-format `ValueError`,
and "1d2h3m4s" parses to 93784. -/
theorem parse_concrete_values :
    parse_time_interval "" = Except.ok 0 ∧
    parse_time_interval "garbage"
      = Except.error ("Invalid time interval format: " ++ "garbage") ∧
    parse_time_interval "1d2h3m4s" = Except.ok 93784 :=
  ⟨rfl, rfl, rfl⟩

/-- C10: `format_time_interval` emits only the non-zero components, in
d/h/m/s order (a final zero-seconds component appears exactly when the whole
value is zero), its output is never the empty string, the emitted components
decode back to the input, and the three concrete examples hold. -/
theorem format_structure :
    (∀ n : Nat, format_time_interval n ≠ "" ∧
      ∃ od oh om os : Option Nat,
        (format_time_interval n).data = durChain od oh om os ∧
        od.getD 0 * 86400 + oh.getD 0 * 3600 + om.getD 0 * 60 + os.getD 0 = n ∧
        (∀ k, od = some k → 0 < k) ∧ (∀ k, oh = some k → 0 < k) ∧
        (∀ k, om = some k → 0 < k) ∧ (os = some 0 → n = 0)) ∧
    format_time_interval 0 = "0s" ∧
    format_time_interval 90 = "1m30s" ∧
    format_time_interval 90061 = "1d1h1m1s" := by
  refine ⟨fun n => ?_, by simp [format_time_interval, natToDigits, digitChar],
    by simp [format_time_interval, natToDigits, digitChar],
    by simp [format_time_interval, natToDigits, digitChar]⟩
  obtain ⟨od, oh, om, os, hdata, hne, hsum, h1, h2, h3, h4⟩ := format_chain n
  refine ⟨?_, od, oh, om, os, hdata, hsum, h1, h2, h3, h4⟩
  intro hempty
  have hdat : (format_time_interval n).data = [] := by rw [hempty]
  rw [hdata] at hdat
  exact durChain_ne_nil od oh om os hne hdat

end SPPB
